import Mathlib

/-
Verification of the configuration-override parser and merge engine in
src/dh/dh_template_gen/generate_request_template.py (class
DistroXRequestTemplateGenerator).

Python strings are modelled as `List Char` (abbreviated `Str`); Python
dictionaries with string keys are modelled as association lists with unique
keys, written and read through `pySet` / `aLookup`, which mirror Python's
`d[k] = v` (replace the existing entry in place, otherwise append, which
also reproduces Python's insertion-order behaviour) and `d.get(k)`.

The model keeps the source's tolerant ASCII behaviour: `str.strip()` strips
the ASCII whitespace characters, `int()` accepts an optional sign, digits
and single underscores between digits (Python's grouping rule); full
Unicode whitespace/digit handling is out of scope of the command strings
this tool consumes, which are ASCII.
-/

namespace GenReqTemplate

/-- Python strings are finite character sequences. -/
abbrev Str := List Char

/-- The ASCII whitespace characters recognised by Python's `str.strip()` /
`\s`. -/
def isPySpace : Char → Bool
  | ' ' | '\t' | '\n' | '\r' | '\x0b' | '\x0c' => true
  | _ => false

/-- Python `s.strip()`: remove leading and trailing whitespace. -/
def pystrip (s : Str) : Str :=
  ((s.dropWhile isPySpace).reverse.dropWhile isPySpace).reverse

/-- Python `s.lstrip(",")`. -/
def lstripComma (s : Str) : Str := s.dropWhile (fun c => c == ',')

/-- Python `s.rstrip(",")`. -/
def rstripComma (s : Str) : Str := (s.reverse.dropWhile (fun c => c == ',')).reverse

/-- Python `s.strip("\x7b\x7d")`: remove every leading and trailing brace. -/
def stripBraces (s : Str) : Str :=
  let p : Char → Bool := fun c => c == '\x7b' || c == '\x7d'
  ((s.dropWhile p).reverse.dropWhile p).reverse

/-- Python `s.split(sep)` for a single-character separator: keeps empty
fields, `"".split(sep) == [""]`. -/
def splitOn (sep : Char) : Str → List Str
  | [] => [[]]
  | c :: t =>
    match splitOn sep t with
    | [] => [[c]]
    | h :: r => if c = sep then [] :: h :: r else (c :: h) :: r

/-- Python `s.split(sep, 1)` for a single-character separator, as the pair of
the text before the first separator and the text after it (the whole string
and `[]` when the separator does not occur; callers guard on occurrence just
as the source does with `"=" in pair`). -/
def splitFirst (sep : Char) : Str → Str × Str
  | [] => ([], [])
  | c :: t =>
    if c = sep then ([], t)
    else
      let r := splitFirst sep t
      (c :: r.1, r.2)

/-- Python `s.split(sep)` for a multi-character separator: scan left to
right, cutting at each non-overlapping occurrence.  The fuel argument is the
length of the remaining string; each step consumes at least one character
because the separators used by the source (`"\x7d,\x7b"`) are non-empty. -/
def splitOnStrGo (sep : Str) : Nat → Str → List Str
  | _, [] => [[]]
  | 0, s => [s]
  | fuel + 1, c :: t =>
    if sep.isPrefixOf (c :: t) then
      [] :: splitOnStrGo sep fuel ((c :: t).drop sep.length)
    else
      match splitOnStrGo sep fuel t with
      | [] => [[c]]
      | h :: r => (c :: h) :: r

/-- Python `s.split(sep)` for a multi-character separator. -/
def splitOnStr (sep s : Str) : List Str := splitOnStrGo sep s.length s

/-- Python `pat in s`: substring containment. -/
def hasSubstr (s pat : Str) : Bool :=
  pat.isPrefixOf s ||
    match s with
    | [] => false
    | _ :: t => hasSubstr t pat

/-- Python `s.find(pat)` restricted to the found case: index of the first
occurrence of `pat` in `s`, `none` when absent (the source only uses the
index after guarding with `pat in s`). -/
def findIdx (pat : Str) : Str → Option Nat
  | [] => if pat = [] then some 0 else none
  | c :: t =>
    if pat.isPrefixOf (c :: t) then some 0
    else (findIdx pat t).map (· + 1)

/-- Digit-sequence validity for Python `int()`: one or more ASCII digits with
single underscores allowed strictly between digits. -/
def pyDigitsOk : Str → Bool
  | [] => false
  | [c] => c.isDigit
  | '_' :: _ => false
  | c :: rest => c.isDigit && pyDigitsRest rest
where
  /-- Validity of the remaining digit sequence after the first digit. -/
  pyDigitsRest : Str → Bool
  | [] => true
  | '_' :: [] => false
  | '_' :: c :: rest => c.isDigit && pyDigitsRest rest
  | c :: rest => c.isDigit && pyDigitsRest rest

/-- Numeric value of a valid digit sequence, ignoring underscores. -/
def pyDigitsVal (s : Str) : Nat :=
  (s.filter (fun c => c != '_')).foldl (fun a c => a * 10 + (c.toNat - 48)) 0

/-- Python `int(v)` on an already-stripped string: optional sign followed by
digits; `none` models the `ValueError` that the source catches and absorbs
(`try: v = int(v) except: pass`). -/
def toIntOpt (s : Str) : Option Int :=
  match s with
  | '+' :: t => if pyDigitsOk t then some (Int.ofNat (pyDigitsVal t)) else none
  | '-' :: t => if pyDigitsOk t then some (-(Int.ofNat (pyDigitsVal t))) else none
  | _ => if pyDigitsOk s then some (Int.ofNat (pyDigitsVal s)) else none

/-- Python `d.get(k)` on a string-keyed dict modelled as an association
list. -/
def aLookup {α : Type} : List (Str × α) → Str → Option α
  | [], _ => none
  | (k, v) :: t, key => if k = key then some v else aLookup t key

/-- Python `d[k] = v`: replace the value of an existing key in place,
otherwise append the new entry (Python dicts preserve insertion order). -/
def pySet {α : Type} : List (Str × α) → Str → α → List (Str × α)
  | [], key, v => [(key, v)]
  | (k, w) :: t, key, v =>
    if k = key then (k, v) :: t else (k, w) :: pySet t key v

/-
Field-name and marker constants of the source, written once so that the
definitions and theorems below can refer to them by name.
-/

/-- The dict key `"instanceGroupName"`. -/
def igNameKey : Str := "instanceGroupName".data

/-- The dict key `"nodeCount"`. -/
def nodeCountKey : Str := "nodeCount".data

/-- The dict key `"instanceGroupType"`. -/
def igTypeKey : Str := "instanceGroupType".data

/-- The dict key `"instanceType"`. -/
def instanceTypeKey : Str := "instanceType".data

/-- The dict key `"attachedVolumeConfiguration"`. -/
def avcKey : Str := "attachedVolumeConfiguration".data

/-- The dict key `"rootVolumeSize"`. -/
def rootVolumeSizeKey : Str := "rootVolumeSize".data

/-- The dict key `"recipeNames"`. -/
def recipeNamesKey : Str := "recipeNames".data

/-- The dict key `"recoveryMode"`. -/
def recoveryModeKey : Str := "recoveryMode".data

/-- The dict key `"name"`. -/
def nameKey : Str := "name".data

/-- The dict key `"type"`. -/
def typeKey : Str := "type".data

/-- The dict key `"template"`. -/
def templateKey : Str := "template".data

/-- The dict key `"attachedVolumes"`. -/
def attachedVolumesKey : Str := "attachedVolumes".data

/-- The dict key `"rootVolume"`. -/
def rootVolumeKey : Str := "rootVolume".data

/-- The dict key `"size"`. -/
def sizeKey : Str := "size".data

/-- The dict key `"count"`. -/
def countKey : Str := "count".data

/-- The dict key `"volumeSize"`. -/
def volumeSizeKey : Str := "volumeSize".data

/-- The dict key `"volumeCount"`. -/
def volumeCountKey : Str := "volumeCount".data

/-- The dict key `"volumeType"`. -/
def volumeTypeKey : Str := "volumeType".data

/-- The fallback group name `"unknown"` used by
`_parse_instance_groups_string`. -/
def unknownName : Str := "unknown".data

/-- The literal `"attachedVolumeConfiguration="` searched for inside a group
definition string. -/
def avcMarker : Str := "attachedVolumeConfiguration=".data

/-- The record separator `"\x7d,\x7b"` of `parse_attached_volumes`. -/
def volSep : Str := "\x7d,\x7b".data

/-
Model of the inner function `parse_attached_volumes` of
`parse_instance_groups_argument` (source lines 247-289).
-/

/-- A value inside a volume record: `volumeSize`/`volumeCount` are coerced to
int when the text parses, otherwise every value stays a string. -/
inductive VolVal where
  | vi : Int → VolVal
  | vs : Str → VolVal
deriving DecidableEq, Repr

/-- One parsed volume record (`size`/`count`/`type` entries, in that
insertion order, each present only when the corresponding CLI key was). -/
abbrev Volume := List (Str × VolVal)

/-- The dict `d` built from one `\x7b...\x7d` item: strip the braces, split on
commas, keep the pairs that contain `=`, coerce `volumeSize`/`volumeCount`
to int when possible. -/
def itemDict (item : Str) : List (Str × VolVal) :=
  (splitOn ',' (stripBraces item)).foldl
    (fun d pair =>
      if pair.contains '=' then
        let kv := splitFirst '=' pair
        let k := pystrip kv.1
        let v := pystrip kv.2
        let vv : VolVal :=
          if k = volumeSizeKey ∨ k = volumeCountKey then
            match toIntOpt v with
            | some n => .vi n
            | none => .vs v
          else .vs v
        pySet d k vv
      else d)
    []

/-- The `mapped_volume` dict of one item: `volumeSize`→`size`,
`volumeCount`→`count`, `volumeType`→`type`; unmapped keys are dropped. -/
def mappedVolume (d : List (Str × VolVal)) : Volume :=
  (match aLookup d volumeSizeKey with
   | some v => [(sizeKey, v)]
   | none => []) ++
  (match aLookup d volumeCountKey with
   | some v => [(countKey, v)]
   | none => []) ++
  (match aLookup d volumeTypeKey with
   | some v => [(typeKey, v)]
   | none => [])

/-- Handling of one item of the bracketed list: an item whose dict is empty,
or whose dict maps to an empty `mapped_volume`, contributes nothing. -/
def processItem (item : Str) : Option Volume :=
  let d := itemDict item
  if d = [] then none
  else if mappedVolume d = [] then none
  else some (mappedVolume d)

/-- Tests whether a string starts with the given character (Python
`s.startswith(c)` on a non-empty string). -/
def startsWithChar (s : Str) (c : Char) : Bool :=
  match s with
  | [] => false
  | c' :: _ => c' = c

/-- Tests whether a string ends with the given character (Python
`s.endswith(c)`). -/
def endsWithChar (s : Str) (c : Char) : Bool :=
  match s.getLast? with
  | none => false
  | some c' => c' = c

/-- Model of `parse_attached_volumes` (source lines 247-289): empty or
non-bracketed input yields `[]`; otherwise strip the outer brackets, split on
`"\x7d,\x7b"`, and collect the non-empty mapped records. -/
def parse_attached_volumes (val : Str) : List Volume :=
  if val = [] then []
  else if ¬ startsWithChar val '[' then []
  else if ¬ endsWithChar val ']' then []
  else
    (splitOnStr volSep ((val.drop 1).dropLast)).foldl
      (fun res item =>
        match processItem item with
        | some mv => res ++ [mv]
        | none => res)
      []

/-
Model of `parse_instance_groups_argument` (source lines 234-374).
-/

/-- A value of a parsed instance-group record: string, coerced int,
recipe-name list, or parsed volume list. -/
inductive GVal where
  | s : Str → GVal
  | i : Int → GVal
  | strs : List Str → GVal
  | vols : List Volume → GVal
deriving DecidableEq, Repr

/-- One parsed instance-group record, a Python dict in insertion order. -/
abbrev GroupRec := List (Str × GVal)

/-- Value coercion of one ordinary `key=value` pair (source lines 338-350 and
358-370): `nodeCount`/`rootVolumeSize` to int when parseable, `recipeNames`
split on commas into trimmed non-empty strings, everything else a string. -/
def coerceGroupVal (k v : Str) : GVal :=
  if k = nodeCountKey then
    match toIntOpt v with
    | some n => .i n
    | none => .s v
  else if k = rootVolumeSizeKey then
    match toIntOpt v with
    | some n => .i n
    | none => .s v
  else if k = recipeNamesKey then
    .strs (((splitOn ',' v).map pystrip).filter (fun x => ¬ x = []))
  else .s v

/-- Processing of one `key=value` pair: split on the first `=`, strip both
sides, coerce, store. -/
def pairStep (g : GroupRec) (pair : Str) : GroupRec :=
  let kv := splitFirst '=' pair
  let k := pystrip kv.1
  let v := pystrip kv.2
  pySet g k (coerceGroupVal k v)

/-- The remaining-parts loop of the `attachedVolumeConfiguration` branch
(source lines 332-350): strip each part, require `=` and non-emptiness, then
apply `pairStep`. -/
def applyGroupParts (parts : List Str) (g : GroupRec) : GroupRec :=
  parts.foldl
    (fun g part =>
      let p := pystrip part
      if p.contains '=' ∧ ¬ p = [] then pairStep g p else g)
    g

/-- The bracket-depth scan of source lines 305-314: starting after
`attachedVolumeConfiguration=`, return `some (i+1)` for the first `]` at
absolute index `i` that brings the running count back to zero, `none` when no
such position exists (in the source, `end_pos` then keeps its initial value
`start_pos`). -/
def bracketScan : Str → Int → Nat → Option Nat
  | [], _, _ => none
  | c :: t, cnt, i =>
    if c = '[' then bracketScan t (cnt + 1) (i + 1)
    else if c = ']' then
      if cnt - 1 = 0 then some (i + 1) else bracketScan t (cnt - 1) (i + 1)
    else bracketScan t cnt (i + 1)

/-- Absolute index of the first character after the first occurrence of
`attachedVolumeConfiguration=` (callers guard on occurrence). -/
def avcValStart (gs : Str) : Nat :=
  (match findIdx avcMarker gs with
   | some i => i
   | none => 0) + avcMarker.length

/-- The `end_pos` of the bracket scan: the balance position when one exists,
otherwise `start_pos` itself (the loop finishes without `break` and
`end_pos` keeps its initial value). -/
def avcValEnd (gs : Str) : Nat :=
  match bracketScan (gs.drop (avcValStart gs)) 0 (avcValStart gs) with
  | some e => e
  | none => avcValStart gs

/-- The isolated `attachedVolumeConfiguration` value,
`group_str[start_pos:end_pos]`. -/
def avcValStr (gs : Str) : Str :=
  (gs.drop (avcValStart gs)).take (avcValEnd gs - avcValStart gs)

/-- The ordinary `key=value` parts around the isolated volume field: text
before the marker (with trailing commas removed) followed by text after the
field (with leading commas removed), each split on commas and only when
non-blank. -/
def avcRemainingParts (gs : Str) : List Str :=
  let before := gs.take (avcValStart gs - avcMarker.length)
  let after := gs.drop (avcValEnd gs)
  (if ¬ pystrip before = [] then splitOn ',' (rstripComma before) else []) ++
  (if ¬ pystrip after = [] then splitOn ',' (lstripComma after) else [])

/-- Parsing of one space-delimited group definition (the body of the loop of
source lines 293-373): the branch with `attachedVolumeConfiguration=` first
stores the parsed volume list, then folds the remaining pairs over it; the
ordinary branch folds all comma-separated pairs over the empty record. -/
def parseOneGroup (gs : Str) : GroupRec :=
  if hasSubstr gs avcMarker then
    applyGroupParts (avcRemainingParts gs)
      [(avcKey, GVal.vols (parse_attached_volumes (avcValStr gs)))]
  else
    (splitOn ',' gs).foldl
      (fun g pair => if pair.contains '=' then pairStep g pair else g)
      []

/-- Model of `parse_instance_groups_argument` (source lines 234-374): strip
the argument, split on single spaces, skip blank entries, parse each group
in order. -/
def parse_instance_groups_argument (arg : Str) : List GroupRec :=
  (splitOn ' ' (pystrip arg)).foldl
    (fun acc gs => if pystrip gs = [] then acc else acc ++ [parseOneGroup gs])
    []

/-
Model of `_parse_instance_groups_string` (source lines 423-460), the
CommandGroupIndex builder: keys and values stay raw (unstripped) strings.
-/

/-- The raw config dict of one group definition: split on commas, store each
pair that contains `=` by its first `=` (no stripping in this function). -/
def igConfigOf (gd : Str) : List (Str × Str) :=
  (splitOn ',' gd).foldl
    (fun c pair =>
      if pair.contains '=' then
        let kv := splitFirst '=' pair
        pySet c kv.1 kv.2
      else c)
    []

/-- The index name of one group definition:
`group_config.get('instanceGroupName', 'unknown')`. -/
def igNameOf (gd : Str) : Str :=
  match aLookup (igConfigOf gd) igNameKey with
  | some v => v
  | none => unknownName

/-- Model of `_parse_instance_groups_string` (source lines 423-460): split on
single spaces, skip blank definitions, index each config under its name
(later definitions overwrite earlier ones with the same name). -/
def parse_instance_groups_string (s : Str) : List (Str × List (Str × Str)) :=
  (splitOn ' ' s).foldl
    (fun acc gd =>
      if pystrip gd = [] then acc
      else pySet acc (igNameOf gd) (igConfigOf gd))
    []

/-
Model of `_parse_cli_command` (source lines 129-203).
-/

/-- The marker `"--tags"`. -/
def tagsMarker : Str := "--tags".data

/-- The flag-marker `"--"` that terminates the tags region. -/
def dashDash : Str := "--".data

/-- The marker `"--subnet-id"` of the regex `--subnet-id\s+(\S+)`. -/
def subnetMarker : Str := "--subnet-id".data

/-- The marker `"--datahub-database"` of the regex
`--datahub-database\s+(\S+)`. -/
def dbMarker : Str := "--datahub-database".data

/-- The negative multi-AZ marker `"--no-multi-az"`. -/
def mazNeg : Str := "--no-multi-az".data

/-- The positive multi-AZ marker `"--multi-az"`. -/
def mazPos : Str := "--multi-az".data

/-- The negative load-balancer marker `"--no-enable-load-balancer"`. -/
def lbNeg : Str := "--no-enable-load-balancer".data

/-- The positive load-balancer marker `"--enable-load-balancer"`. -/
def lbPos : Str := "--enable-load-balancer".data

/-- The marker `"--instance-groups"` of the regex
`--instance-groups\s+(.+?)(?=\s+--|\s*$)`. -/
def igMarker : Str := "--instance-groups".data

/-- The default database mode string `"NONE"`. -/
def noneStr : Str := "NONE".data

/-- The literal `key="` opening a tag pair. -/
def keyQuote : Str := ['k', 'e', 'y', '=', '"']

/-- The literal `",value="` (with its surrounding quotes) between the tag key
and the tag value. -/
def midQuote : Str := ['"', ',', 'v', 'a', 'l', 'u', 'e', '=', '"']

/-- Literal prefix match: `some rest` exactly when `pat` is a prefix of `s`,
with `rest` the remainder. -/
def stripLit : Str → Str → Option Str
  | [], s => some s
  | _ :: _, [] => none
  | p :: ps, c :: cs => if c = p then stripLit ps cs else none

/-- Normalisation `tags_str.replace('""', '"')` (source line 166): collapse
doubled quotes left to right, non-overlapping. -/
def normQuotes : Str → Str
  | [] => []
  | [c] => [c]
  | c1 :: c2 :: t =>
    if c1 = '"' ∧ c2 = '"' then '"' :: normQuotes t
    else c1 :: normQuotes (c2 :: t)

/-- One attempted match of the pattern `key="([^"]+)",value="([^"]+)"` at the
start of `s`: because `[^"]+` cannot contain a quote, its greedy run extends
exactly to the next quote and no backtracking case survives, so the match is
deterministic.  Returns the two groups and the remainder after the match. -/
def tryTag (s : Str) : Option (Str × Str × Str) :=
  match stripLit keyQuote s with
  | none => none
  | some r1 =>
    let k := r1.takeWhile (fun c => c != '"')
    if k = [] then none
    else
      match stripLit midQuote (r1.dropWhile (fun c => c != '"')) with
      | none => none
      | some r3 =>
        let v := r3.takeWhile (fun c => c != '"')
        if v = [] then none
        else
          match r3.dropWhile (fun c => c != '"') with
          | '"' :: rest => some (k, v, rest)
          | _ => none

/-- Scanner of `re.findall` for the tag pattern: try a match at every
position left to right; after a match, continue after its end
(non-overlapping).  Fuel is the string length; every step consumes at least
one character. -/
def findTagPairsGo : Nat → Str → List (Str × Str)
  | _, [] => []
  | 0, _ => []
  | fuel + 1, c :: t =>
    match tryTag (c :: t) with
    | some (k, v, rest) => (k, v) :: findTagPairsGo fuel rest
    | none => findTagPairsGo fuel t

/-- All `key="..",value=".."` matches of a tags string. -/
def findTagPairs (s : Str) : List (Str × Str) := findTagPairsGo s.length s

/-- Tag extraction from the stripped tags string: normalise doubled quotes,
find all pairs, insert them into a dict in order (source lines 166-172). -/
def tagsFromStr (t : Str) : List (Str × Str) :=
  (findTagPairs (normQuotes t)).foldl (fun m kv => pySet m kv.1 kv.2) []

/-- Tag extraction from the raw tags region (the region is stripped first,
source line 158/160). -/
def tagsOfRegion (r : Str) : List (Str × Str) := tagsFromStr (pystrip r)

/-- One attempted match of `marker\s+(\S+)` at the start of `s`: the literal
marker, at least one whitespace character, then the maximal non-whitespace
token (regex greediness is deterministic here: a shorter `\s+` leaves `\S`
facing a whitespace character). -/
def tryTok (marker s : Str) : Option Str :=
  match stripLit marker s with
  | none => none
  | some r =>
    if r.takeWhile isPySpace = [] then none
    else
      let tok := (r.dropWhile isPySpace).takeWhile (fun c => ¬ isPySpace c)
      if tok = [] then none else some tok

/-- `re.search(marker + r'\s+(\S+)', s)`: leftmost position at which the full
pattern matches, returning group 1. -/
def reTokSearch (marker : Str) : Str → Option Str
  | [] => none
  | c :: t =>
    match tryTok marker (c :: t) with
    | some tok => some tok
    | none => reTokSearch marker t

/-- The lookahead `(?=\s+--|\s*$)` of the instance-groups regex, tested at a
remainder `r`: either at least one whitespace character followed by `--`
(only the maximal whitespace run can be followed by a non-whitespace `-`),
or nothing but whitespace up to the end. -/
def igLookahead (r : Str) : Bool :=
  let w := r.takeWhile isPySpace
  (!w.isEmpty && dashDash.isPrefixOf (r.dropWhile isPySpace)) ||
    (r.dropWhile isPySpace).isEmpty

/-- The lazy group `(.+?)` of the instance-groups regex: grow the group one
character at a time from the left of `rest` until the lookahead holds. -/
def igScanGroup (acc : Str) : Str → Option Str
  | [] => none
  | c :: rest =>
    if igLookahead rest then some (acc ++ [c])
    else igScanGroup (acc ++ [c]) rest

/-- Backtracking over the greedy `\s+` of the instance-groups regex: try the
whitespace-run length `n`, longest first, as `re` does. -/
def igTryNws (rest : Str) : Nat → Option Str
  | 0 => none
  | n + 1 =>
    match igScanGroup [] (rest.drop (n + 1)) with
    | some g => some g
    | none => igTryNws rest n

/-- One attempted match of the whole instance-groups pattern with the marker
already consumed: `\s+` greedy then the lazy group. -/
def igTryAt (rest : Str) : Option Str :=
  igTryNws rest (rest.takeWhile isPySpace).length

/-- `re.search(r'--instance-groups\s+(.+?)(?=\s+--|\s*$)', s, re.DOTALL)`:
leftmost position at which the pattern matches, returning group 1. -/
def igSearch : Str → Option Str
  | [] => none
  | c :: t =>
    if igMarker.isPrefixOf (c :: t) then
      match igTryAt ((c :: t).drop igMarker.length) with
      | some g => some g
      | none => igSearch t
    else igSearch t

/-- The result record of `_parse_cli_command` (source lines 145-152): the
`parsed` dict with its declared defaults. -/
structure ParsedCli where
  tags : List (Str × Str)
  subnet_id : Option Str
  multi_az : Bool
  enable_load_balancer : Bool
  datahub_database : Str
  instance_groups_override : List (Str × List (Str × Str))
deriving DecidableEq, Repr

/-- The declared defaults of the `parsed` dict. -/
def defaultParsed : ParsedCli :=
  ⟨[], none, false, false, noneStr, []⟩

/-- The tags region of a command string that contains `--tags`: from after
the marker to the next `--` when one follows (the source tests
`next_dash > 0`, and a found index is always ≥ 6 here), otherwise to the end
of the string. -/
def tagsRegion (cli : Str) : Str :=
  let startp :=
    (match findIdx tagsMarker cli with
     | some i => i
     | none => 0) + tagsMarker.length
  match findIdx dashDash (cli.drop startp) with
  | some i => (cli.drop startp).take i
  | none => cli.drop startp

/-- Model of `_parse_cli_command` (source lines 129-203).  The function is
total: every field falls back to its declared default when its marker is
absent, mirroring the source's never-raise policy. -/
def parse_cli_command (cli : Str) : ParsedCli :=
  let tags :=
    if hasSubstr cli tagsMarker then tagsOfRegion (tagsRegion cli) else []
  let subnet := reTokSearch subnetMarker cli
  let maz :=
    if hasSubstr cli mazNeg then false
    else if hasSubstr cli mazPos then true
    else false
  let lb :=
    if hasSubstr cli lbNeg then false
    else if hasSubstr cli lbPos then true
    else false
  let db :=
    match reTokSearch dbMarker cli with
    | some t => t
    | none => noneStr
  let igo :=
    match igSearch cli with
    | some g => parse_instance_groups_string (pystrip g)
    | none => []
  ⟨tags, subnet, maz, lb, db, igo⟩

/-
Model of `merge_instance_group_override` (source lines 376-421).

The baseline instance-group record (`template_group`) is a JSON-like tree of
nested dicts, as produced by `extract_instance_group_details` or loaded from
a cluster description: a tree, with no internal sharing between distinct
sub-dicts.  The source builds `merged = template_group.copy()` — a SHALLOW
copy — so after the copy the top-level dict of `merged` is a fresh object
whose dict-valued entries are the very same objects as the baseline's.  The
loop then walks `d = merged; for key in mapped[:-1]: ...; d[mapped[-1]] = v`.

Consequences, reflected faithfully by `mergeGo` below, which returns the
final value of BOTH objects (`merged`, `template_group`):

* a top-level destination write (`merged[mapped] = v`) only touches the
  fresh top-level dict of `merged`;
* every nested destination path starts with `"template"` and no top-level
  destination is `"template"`, so the `"template"` entry of `merged` is the
  baseline's own template dict exactly when the baseline has a dict there
  (`sharedTemplate`); in that case every nested write (including the
  creation of a missing intermediate such as `rootVolume`, which happens
  inside the shared dict) mutates the baseline's template sub-tree
  identically, and the two template sub-trees stay equal throughout;
* when the baseline's `"template"` entry is absent or not a dict, the first
  nested write replaces it by a fresh dict inside `merged` only, and the
  baseline is not touched.
-/

/-- A primitive (non-dict) value of an instance-group record. -/
inductive Prim where
  | s : Str → Prim
  | i : Int → Prim
  | b : Bool → Prim
  | strs : List Str → Prim
  | vols : List Volume → Prim
  | null : Prim
deriving DecidableEq, Repr

/-- A value of the JSON-like record tree: a primitive or a nested dict (an
association list in insertion order with unique keys). -/
inductive PVal where
  | prim : Prim → PVal
  | dict : List (Str × PVal) → PVal

/-- A Python dict in insertion order, with unique keys. -/
abbrev PDict := List (Str × PVal)

instance : Inhabited PVal := ⟨.prim .null⟩

/-- Dict lookup (first entry with the key; keys are unique). -/
def dlook : PDict → Str → Option PVal
  | [], _ => none
  | (k, v) :: d, key => if k = key then some v else dlook d key

/-- Python `d[k] = v` on a record tree dict: replace in place, else
append. -/
def dsetD : PDict → Str → PVal → PDict
  | [], key, v => [(key, v)]
  | (k, w) :: d, key, v =>
    if k = key then (k, v) :: d else (k, w) :: dsetD d key v

/-- The dict the merge loop walks into at a key: the existing dict entry, or
the fresh empty dict created when the entry is missing or not a dict
(source lines 414-417). -/
def innerD (d : PDict) (k : Str) : PDict :=
  match dlook d k with
  | some (.dict di) => di
  | _ => []

/-- The nested-path write of the merge loop: walk the intermediate keys,
replacing any missing or non-dict entry by a fresh dict, and set the leaf. -/
def setPath (d : PDict) : List Str → PVal → PDict
  | [], _ => d
  | [k], v => dsetD d k v
  | k :: k2 :: rest, v => dsetD d k (.dict (setPath (innerD d k) (k2 :: rest) v))

/-- A destination of the merge `key_map`: a top-level key or a nested
path. -/
inductive KDest where
  | top : Str → KDest
  | nested : List Str → KDest
deriving DecidableEq, Repr

/-- The fixed `key_map` of `merge_instance_group_override` (source lines
392-401); keys not in the map are skipped. -/
def key_map (k : Str) : Option KDest :=
  if k = igNameKey then some (.top nameKey)
  else if k = nodeCountKey then some (.top nodeCountKey)
  else if k = igTypeKey then some (.top typeKey)
  else if k = instanceTypeKey then
    some (.nested [templateKey, instanceTypeKey])
  else if k = avcKey then
    some (.nested [templateKey, attachedVolumesKey])
  else if k = rootVolumeSizeKey then
    some (.nested [templateKey, rootVolumeKey, sizeKey])
  else if k = recipeNamesKey then some (.top recipeNamesKey)
  else if k = recoveryModeKey then some (.top recoveryModeKey)
  else none

/-- Whether the baseline's `"template"` entry is a dict, i.e. whether the
shallow copy shares the template sub-dict between `merged` and the
baseline. -/
def sharedTemplate (tg : PDict) : Bool :=
  match dlook tg templateKey with
  | some (.dict _) => true
  | _ => false

/-- The merge loop over the override items, carried out simultaneously on
the value of `merged` (first component) and the value of the baseline dict
(second component); a nested write also hits the baseline exactly when the
template sub-dict is shared (see the block comment above). -/
def mergeGo (shared : Bool) : List (Str × Prim) → PDict → PDict → PDict × PDict
  | [], m, b => (m, b)
  | (k, v) :: rest, m, b =>
    match key_map k with
    | none => mergeGo shared rest m b
    | some (.top dest) => mergeGo shared rest (dsetD m dest (.prim v)) b
    | some (.nested path) =>
      mergeGo shared rest (setPath m path (.prim v))
        (if shared then setPath b path (.prim v) else b)

/-- Model of `merge_instance_group_override` (source lines 376-421): returns
the pair of the merged record's value and the baseline record's value after
the call (the source returns only the former and mutates the latter through
the shared template sub-dict). -/
def merge_instance_group_override (tg : PDict) (ov : List (Str × Prim)) :
    PDict × PDict :=
  mergeGo (sharedTemplate tg) ov tg tg

/-- The merged record returned by the merge. -/
def mergedOf (tg : PDict) (ov : List (Str × Prim)) : PDict :=
  (merge_instance_group_override tg ov).1

/-- The value of the baseline record after the merge call. -/
def baselineAfter (tg : PDict) (ov : List (Str × Prim)) : PDict :=
  (merge_instance_group_override tg ov).2

/-- Observation of a record tree at a path, flattening dicts to a marker so
that two dicts observe equal exactly when they are equal as Python dicts
(same keys, recursively equal values, ignoring insertion order). -/
inductive Look where
  | atPrim : Prim → Look
  | atDict : Look
deriving DecidableEq, Repr

/-- Path observation of a value (recursion on the path). -/
def lookV : PVal → List Str → Option Look
  | .prim p, [] => some (.atPrim p)
  | .dict _, [] => some .atDict
  | .prim _, _ :: _ => none
  | .dict d, k :: rest =>
    match dlook d k with
    | none => none
    | some v => lookV v rest

/-- Path observation of a dict. -/
def lookD (d : PDict) (p : List Str) : Option Look := lookV (.dict d) p

/-- Extensional equality of record dicts: equal observations at every path.
This is Python's `==` on acyclic dict trees, which ignores insertion
order. -/
def DEquiv (a b : PDict) : Prop := ∀ p : List Str, lookD a p = lookD b p

/-
Derived views of the merge used by the theorems below.
-/

/-- The effect of one override item on a record value (the merged-side step
of `mergeGo`, split out by destination). -/
def applyDest (m : KDest) (v : Prim) (tg : PDict) : PDict :=
  match m with
  | .top dest => dsetD tg dest (.prim v)
  | .nested path => setPath tg path (.prim v)

/-- The merged-side effect of a single override item `(k, v)`. -/
def applyOne (k : Str) (v : Prim) (tg : PDict) : PDict :=
  match key_map k with
  | none => tg
  | some m => applyDest m v tg

/-- The observation path of a destination. -/
def destPath : KDest → List Str
  | .top dest => [dest]
  | .nested path => path

/-- The five top-level destination keys of `key_map`. -/
def topDestKeys : List Str :=
  [nameKey, nodeCountKey, typeKey, recipeNamesKey, recoveryModeKey]

/-- The eight destinations of `key_map`. -/
def kmDests : List KDest :=
  [.top nameKey, .top nodeCountKey, .top typeKey,
   .nested [templateKey, instanceTypeKey],
   .nested [templateKey, attachedVolumesKey],
   .nested [templateKey, rootVolumeKey, sizeKey],
   .top recipeNamesKey, .top recoveryModeKey]

/-- The nested destination path `template.instanceType`. -/
def tiPath : List Str := [templateKey, instanceTypeKey]

/-- The nested destination path `template.attachedVolumes`. -/
def avPath : List Str := [templateKey, attachedVolumesKey]

/-- The nested destination path `template.rootVolume.size`. -/
def rvsPath : List Str := [templateKey, rootVolumeKey, sizeKey]

/-
Concrete inputs taken from the spec's examples, used by the counterexample
and witness theorems.
-/

/-- The string `"r5.xlarge"`. -/
def r5Str : Str := "r5.xlarge".data

/-- The string `"m6i.4xlarge"`. -/
def m6iStr : Str := "m6i.4xlarge".data

/-- The string `"gp3"`. -/
def gp3Str : Str := "gp3".data

/-- The string `"core"`. -/
def coreStr : Str := "core".data

/-- The string `"recipe1"`. -/
def recipe1Str : Str := "recipe1".data

/-- The string `"recipe2"`. -/
def recipe2Str : Str := "recipe2".data

/-- The baseline of the spec's §8 merge example: a record whose
`template.instanceType` is `"m6i.4xlarge"` and whose `template.rootVolume.size`
is `100`, together with ordinary top-level fields. -/
def tgExample : PDict :=
  [(nameKey, .prim (.s coreStr)),
   (nodeCountKey, .prim (.i 3)),
   (templateKey,
    .dict
      [(instanceTypeKey, .prim (.s m6iStr)),
       (rootVolumeKey, .dict [(sizeKey, .prim (.i 100))])])]

/-- A baseline without a `template` entry. -/
def tgNoTemplate : PDict := [(nameKey, .prim (.s coreStr))]

/-- The single-key override `(instanceType, "r5.xlarge")`. -/
def ovInstanceType : List (Str × Prim) := [(instanceTypeKey, .s r5Str)]

/-- The spec's §8 override `(instanceType: "r5.xlarge", rootVolumeSize: 500)`. -/
def ovExample : List (Str × Prim) :=
  [(instanceTypeKey, .s r5Str), (rootVolumeSizeKey, .i 500)]

/-- An override with only top-level destinations. -/
def ovTopOnly : List (Str × Prim) := [(nodeCountKey, .i 5)]

/-- The group-definition string of the spec's §8 parser example. -/
def c2Input : Str :=
  "nodeCount=3,instanceGroupName=core,instanceType=m6i.4xlarge,attachedVolumeConfiguration=[\x7bvolumeSize=256,volumeCount=2,volumeType=gp3\x7d],rootVolumeSize=200,recipeNames=recipe1,recipe2".data

/-- The volume record the example's bracketed field parses to. -/
def c2Volume : Volume :=
  [(sizeKey, .vi 256), (countKey, .vi 2), (typeKey, .vs gp3Str)]

/-- The record `parse_instance_groups_argument` actually produces for
`c2Input` — note `recipeNames` holds only `["recipe1"]`: the top-level comma
split already separated `recipe2` into a dangling pair-less token, which the
pair loop drops. -/
def c2Record : GroupRec :=
  [(avcKey, .vols [c2Volume]),
   (nodeCountKey, .i 3),
   (igNameKey, .s coreStr),
   (instanceTypeKey, .s m6iStr),
   (rootVolumeSizeKey, .i 200),
   (recipeNamesKey, .strs [recipe1Str])]

/-- A group string whose `attachedVolumeConfiguration` value never balances
its brackets AND contains the marker text again, so the fallback re-parse
overwrites the empty volume list. -/
def c9CexInput : Str :=
  "attachedVolumeConfiguration=attachedVolumeConfiguration=5".data

/-- A group string whose volume value has an unbalanced `[` (no closing
bracket at all). -/
def c9WitInput : Str :=
  "attachedVolumeConfiguration=[\x7bvolumeSize=5".data

/-- The literal `key=`. -/
def keyLit : Str := ['k', 'e', 'y', '=']

/-- The literal `,value=`. -/
def valueLit : Str := [',', 'v', 'a', 'l', 'u', 'e', '=']

/-- A tags-region fragment `key="k",value="v"` in single-quote form. -/
def tagSingle (k v : Str) : Str :=
  keyQuote ++ (k ++ (midQuote ++ (v ++ ['"'])))

/-- A tags-region fragment `key=""k"",value=""v""` in doubled-quote form. -/
def tagDouble (k v : Str) : Str :=
  keyLit ++ '"' :: '"' ::
    (k ++ '"' :: '"' :: (valueLit ++ '"' :: '"' :: (v ++ ['"', '"'])))

/-- A nameless group definition `nodeCount=2`. -/
def c10g1 : Str := "nodeCount=2".data

/-- A nameless group definition `nodeCount=5`. -/
def c10g2 : Str := "nodeCount=5".data

/-- A command string containing only the negative multi-AZ marker. -/
def c5OnlyNeg : Str := "create-cluster --no-multi-az --other x".data

/-- A command string containing only the positive multi-AZ marker. -/
def c5OnlyPos : Str := "create-cluster --multi-az --other x".data

/-- A command string containing only the negative load-balancer marker. -/
def c5OnlyNegLb : Str := "create-cluster --no-enable-load-balancer x".data

/-- A command string containing only the positive load-balancer marker. -/
def c5OnlyPosLb : Str := "create-cluster --enable-load-balancer x".data

/-- A command string containing neither toggle marker. -/
def c5Neither : Str := "create-cluster --cluster-name foo".data

/-- A command string containing none of the recognized markers. -/
def c8Plain : Str := "cdp datahub create-aws-cluster --cluster-name foo".data

/-- A non-bracketed volume string. -/
def c7NonBracketed : Str := "xyz".data

/-- A volume item with only unmapped keys. -/
def c7Unmapped : Str := "foo=bar,baz=1".data

/-
Helper lemmas about the record-dict operations.
-/

theorem dlook_dsetD (d : PDict) (k : Str) (v : PVal) (q : Str) :
    dlook (dsetD d k v) q = if k = q then some v else dlook d q := by
  induction d with
  | nil => rfl
  | cons kw d ih =>
    obtain ⟨k', w⟩ := kw
    by_cases hk : k' = k
    · subst hk
      by_cases hq : k' = q <;> simp [dsetD, dlook, hq]
    · by_cases hq : k' = q <;> by_cases hq2 : k = q <;>
        simp_all [dsetD, dlook]

theorem dsetD_dsetD_same (d : PDict) (k : Str) (x y : PVal) :
    dsetD (dsetD d k x) k y = dsetD d k y := by
  induction d with
  | nil => simp [dsetD]
  | cons kw d ih =>
    obtain ⟨k', w⟩ := kw
    by_cases hk : k' = k <;> simp [dsetD, hk, ih]

theorem innerD_dsetD_ne (d : PDict) (a : Str) (x : PVal) (h : Str)
    (hne : a ≠ h) : innerD (dsetD d a x) h = innerD d h := by
  simp [innerD, dlook_dsetD, hne]

theorem innerD_dsetD_dict (d : PDict) (k : Str) (di : PDict) :
    innerD (dsetD d k (.dict di)) k = di := by
  simp [innerD, dlook_dsetD]

theorem lookD_cons_path (d : PDict) (k : Str) (p : List Str) :
    lookD d (k :: p) =
      match dlook d k with
      | none => none
      | some v => lookV v p := rfl

theorem lookD_dsetD (d : PDict) (k : Str) (v : PVal) (q : Str)
    (p : List Str) :
    lookD (dsetD d k v) (q :: p) =
      if k = q then lookV v p else lookD d (q :: p) := by
  rw [lookD_cons_path, lookD_cons_path, dlook_dsetD]
  by_cases h : k = q <;> simp [h]

theorem setPath_single (d : PDict) (k : Str) (v : PVal) :
    setPath d [k] v = dsetD d k v := rfl

theorem setPath_cons2 (d : PDict) (k k2 : Str) (rest : List Str) (v : PVal) :
    setPath d (k :: k2 :: rest) v
      = dsetD d k (.dict (setPath (innerD d k) (k2 :: rest) v)) := rfl

theorem lookD_dsetD_comm (d : PDict) (a b : Str) (x y : PVal) (hab : a ≠ b)
    (p : List Str) :
    lookD (dsetD (dsetD d a x) b y) p = lookD (dsetD (dsetD d b y) a x) p := by
  cases p with
  | nil => rfl
  | cons q rest =>
    rw [lookD_dsetD, lookD_dsetD, lookD_dsetD, lookD_dsetD]
    by_cases h1 : a = q <;> by_cases h2 : b = q <;> simp_all

theorem lookD_dset_setPath_comm (d : PDict) (a : Str) (x : PVal) (h : Str)
    (r : List Str) (v : PVal) (hne : a ≠ h) (p : List Str) :
    lookD (setPath (dsetD d a x) (h :: r) v) p
      = lookD (dsetD (setPath d (h :: r) v) a x) p := by
  cases r with
  | nil =>
    rw [setPath_single, setPath_single]
    exact lookD_dsetD_comm d a h x v hne p
  | cons k2 rest =>
    rw [setPath_cons2, setPath_cons2, innerD_dsetD_ne d a x h hne]
    exact lookD_dsetD_comm d a h x
      (.dict (setPath (innerD d h) (k2 :: rest) v)) hne p

theorem lookD_dsetD_dict_congr (d : PDict) (h : Str) (i1 i2 : PDict)
    (hE : ∀ p, lookD i1 p = lookD i2 p) (p : List Str) :
    lookD (dsetD d h (.dict i1)) p = lookD (dsetD d h (.dict i2)) p := by
  cases p with
  | nil => rfl
  | cons q rest =>
    rw [lookD_dsetD, lookD_dsetD]
    by_cases hq : h = q
    · simp only [if_pos hq]
      exact hE rest
    · simp [hq]

theorem setPath_twice_same_head (d : PDict) (h : Str) (r1 r2 : List Str)
    (hr1 : r1 ≠ []) (hr2 : r2 ≠ []) (v1 v2 : PVal) :
    setPath (setPath d (h :: r1) v1) (h :: r2) v2
      = dsetD d h (.dict (setPath (setPath (innerD d h) r1 v1) r2 v2)) := by
  cases r1 with
  | nil => exact absurd rfl hr1
  | cons a as =>
    cases r2 with
    | nil => exact absurd rfl hr2
    | cons b bs =>
      rw [setPath_cons2, setPath_cons2, innerD_dsetD_dict, dsetD_dsetD_same]

theorem lookD_setPath_comm_same_head (tg : PDict) (h : Str)
    (r1 r2 : List Str) (hr1 : r1 ≠ []) (hr2 : r2 ≠ []) (v1 v2 : PVal)
    (hinner : ∀ (i : PDict) (p : List Str),
      lookD (setPath (setPath i r1 v1) r2 v2) p
        = lookD (setPath (setPath i r2 v2) r1 v1) p)
    (p : List Str) :
    lookD (setPath (setPath tg (h :: r1) v1) (h :: r2) v2) p
      = lookD (setPath (setPath tg (h :: r2) v2) (h :: r1) v1) p := by
  rw [setPath_twice_same_head tg h r1 r2 hr1 hr2 v1 v2,
      setPath_twice_same_head tg h r2 r1 hr2 hr1 v2 v1]
  exact lookD_dsetD_dict_congr tg h _ _ (hinner (innerD tg h)) p

theorem lookD_setPath_self : ∀ (path : List Str) (d : PDict) (v : PVal),
    path ≠ [] → lookD (setPath d path v) path = lookV v [] := by
  intro path
  induction path with
  | nil => intro d v hne; exact absurd rfl hne
  | cons k rest ih =>
    intro d v _
    cases rest with
    | nil => rw [setPath_single, lookD_dsetD]; simp
    | cons k2 r2 =>
      rw [setPath_cons2, lookD_dsetD]
      simp only [if_pos rfl]
      exact ih (innerD d k) v (by simp)

theorem dlook_setPath_other (b : PDict) (h : Str) (r : List Str) (v : PVal)
    (q : Str) (hq : h ≠ q) : dlook (setPath b (h :: r) v) q = dlook b q := by
  cases r <;> simp [setPath, dlook_dsetD, hq]

/-
Helper lemmas about `key_map`.
-/

theorem key_map_eq_some {k : Str} {m : KDest} (h : key_map k = some m) :
    (k = igNameKey ∧ m = .top nameKey) ∨
    (k = nodeCountKey ∧ m = .top nodeCountKey) ∨
    (k = igTypeKey ∧ m = .top typeKey) ∨
    (k = instanceTypeKey ∧ m = .nested [templateKey, instanceTypeKey]) ∨
    (k = avcKey ∧ m = .nested [templateKey, attachedVolumesKey]) ∨
    (k = rootVolumeSizeKey ∧
      m = .nested [templateKey, rootVolumeKey, sizeKey]) ∨
    (k = recipeNamesKey ∧ m = .top recipeNamesKey) ∨
    (k = recoveryModeKey ∧ m = .top recoveryModeKey) := by
  unfold key_map at h
  split_ifs at h <;> simp_all

theorem key_map_dest_mem {k : Str} {m : KDest} (h : key_map k = some m) :
    m ∈ kmDests := by
  rcases key_map_eq_some h with hc | hc | hc | hc | hc | hc | hc | hc <;>
    obtain ⟨-, rfl⟩ := hc <;> simp [kmDests]

theorem key_map_inj {k1 k2 : Str} {m1 m2 : KDest} (hne : k1 ≠ k2)
    (h1 : key_map k1 = some m1) (h2 : key_map k2 = some m2) : m1 ≠ m2 := by
  rcases key_map_eq_some h1 with hc | hc | hc | hc | hc | hc | hc | hc <;>
    obtain ⟨rfl, rfl⟩ := hc <;>
  rcases key_map_eq_some h2 with hd | hd | hd | hd | hd | hd | hd | hd <;>
    obtain ⟨rfl, rfl⟩ := hd <;>
  first
    | exact absurd rfl hne
    | decide

theorem key_map_top_mem {k dest : Str} (h : key_map k = some (.top dest)) :
    dest ∈ topDestKeys := by
  rcases key_map_eq_some h with hc | hc | hc | hc | hc | hc | hc | hc <;>
    obtain ⟨-, hm⟩ := hc <;> simp_all [topDestKeys]

theorem key_map_nested_head {k : Str} {path : List Str}
    (h : key_map k = some (.nested path)) :
    ∃ r, path = templateKey :: r := by
  rcases key_map_eq_some h with hc | hc | hc | hc | hc | hc | hc | hc <;>
    obtain ⟨-, hm⟩ := hc <;> simp_all

/-
Helper lemmas about the merge loop.
-/

theorem mergedOf_single (tg : PDict) (k : Str) (v : Prim) :
    mergedOf tg [(k, v)] = applyOne k v tg := by
  unfold mergedOf merge_instance_group_override applyOne
  cases h : key_map k with
  | none => simp [mergeGo, h]
  | some m => cases m <;> simp [mergeGo, h, applyDest]

theorem mergeGo_baseline_other (shared : Bool) :
    ∀ (ov : List (Str × Prim)) (m b : PDict) (q : Str), q ≠ templateKey →
      dlook ((mergeGo shared ov m b).2) q = dlook b q := by
  intro ov
  induction ov with
  | nil => intro m b q _; rfl
  | cons kv rest ih =>
    intro m b q hq
    obtain ⟨k, v⟩ := kv
    cases h : key_map k with
    | none =>
      simp only [mergeGo, h]
      exact ih m b q hq
    | some m1 =>
      cases m1 with
      | top dest =>
        simp only [mergeGo, h]
        exact ih _ b q hq
      | nested path =>
        simp only [mergeGo, h]
        rw [ih _ _ q hq]
        obtain ⟨r, rfl⟩ := key_map_nested_head h
        cases shared with
        | false => rfl
        | true =>
          simp only [if_pos]
          exact dlook_setPath_other b templateKey r _ q
            (fun hh => hq hh.symm)

theorem mergeGo_baseline_not_shared :
    ∀ (ov : List (Str × Prim)) (m b : PDict),
      (mergeGo false ov m b).2 = b := by
  intro ov
  induction ov with
  | nil => intro m b; rfl
  | cons kv rest ih =>
    intro m b
    obtain ⟨k, v⟩ := kv
    cases h : key_map k with
    | none => simp only [mergeGo, h]; exact ih _ _
    | some m1 =>
      cases m1 with
      | top dest => simp only [mergeGo, h]; exact ih _ _
      | nested path =>
        simp only [mergeGo, h, Bool.false_eq_true, if_false]
        exact ih _ _

theorem mergeGo_baseline_top_only (shared : Bool) :
    ∀ (ov : List (Str × Prim)) (m b : PDict),
      (∀ kv ∈ ov, ∀ path, key_map kv.1 ≠ some (.nested path)) →
      (mergeGo shared ov m b).2 = b := by
  intro ov
  induction ov with
  | nil => intro m b _; rfl
  | cons kv rest ih =>
    intro m b hov
    obtain ⟨k, v⟩ := kv
    cases h : key_map k with
    | none =>
      simp only [mergeGo, h]
      exact ih _ _ (fun kv hkv => hov kv (List.mem_cons_of_mem _ hkv))
    | some m1 =>
      cases m1 with
      | top dest =>
        simp only [mergeGo, h]
        exact ih _ _ (fun kv hkv => hov kv (List.mem_cons_of_mem _ hkv))
      | nested path =>
        exact absurd h (hov (k, v) (List.mem_cons_self _ _) path)

theorem mergeGo_merged_other (shared : Bool) :
    ∀ (ov : List (Str × Prim)) (m b : PDict) (q : Str),
      q ∉ topDestKeys → q ≠ templateKey →
      dlook ((mergeGo shared ov m b).1) q = dlook m q := by
  intro ov
  induction ov with
  | nil => intro m b q _ _; rfl
  | cons kv rest ih =>
    intro m b q hq1 hq2
    obtain ⟨k, v⟩ := kv
    cases h : key_map k with
    | none =>
      simp only [mergeGo, h]
      exact ih m b q hq1 hq2
    | some m1 =>
      cases m1 with
      | top dest =>
        simp only [mergeGo, h]
        rw [ih _ _ q hq1 hq2, dlook_dsetD]
        exact if_neg (fun hh => hq1 (by rw [← hh]; exact key_map_top_mem h))
      | nested path =>
        simp only [mergeGo, h]
        rw [ih _ _ q hq1 hq2]
        obtain ⟨r, rfl⟩ := key_map_nested_head h
        exact dlook_setPath_other m templateKey r _ q (fun hh => hq2 hh.symm)

theorem applyDest_comm (m1 m2 : KDest) (hm1 : m1 ∈ kmDests)
    (hm2 : m2 ∈ kmDests) (hne : m1 ≠ m2) (v1 v2 : Prim) (tg : PDict)
    (p : List Str) :
    lookD (applyDest m2 v2 (applyDest m1 v1 tg)) p
      = lookD (applyDest m1 v1 (applyDest m2 v2 tg)) p := by
  simp only [kmDests, List.mem_cons, List.not_mem_nil, or_false] at hm1 hm2
  rcases hm1 with hc | hc | hc | hc | hc | hc | hc | hc <;> subst hc <;>
    rcases hm2 with hd | hd | hd | hd | hd | hd | hd | hd <;> subst hd <;>
    simp only [applyDest] <;>
    first
      | exact absurd rfl hne
      | exact lookD_dsetD_comm tg _ _ _ _ (by decide) p
      | exact lookD_dset_setPath_comm tg _ _ _ _ _ (by decide) p
      | exact (lookD_dset_setPath_comm tg _ _ _ _ _ (by decide) p).symm
      | exact lookD_setPath_comm_same_head tg _ _ _ (by decide) (by decide) _ _
          (fun i q => by
            rw [setPath_single, setPath_single, setPath_single, setPath_single]
            exact lookD_dsetD_comm i _ _ _ _ (by decide) q) p
      | exact lookD_setPath_comm_same_head tg _ _ _ (by decide) (by decide) _ _
          (fun i q => by
            rw [setPath_single, setPath_single]
            exact lookD_dset_setPath_comm i _ _ _ _ _ (by decide) q) p
      | exact lookD_setPath_comm_same_head tg _ _ _ (by decide) (by decide) _ _
          (fun i q => by
            rw [setPath_single, setPath_single]
            exact (lookD_dset_setPath_comm i _ _ _ _ _ (by decide) q).symm) p

theorem lookV_dict (d : PDict) (p : List Str) :
    lookV (.dict d) p = lookD d p := rfl

theorem mergedOf_ovExample (tg : PDict) :
    mergedOf tg ovExample =
      setPath (setPath tg tiPath (.prim (.s r5Str))) rvsPath
        (.prim (.i 500)) := by
  unfold mergedOf merge_instance_group_override ovExample
  simp [mergeGo,
    show key_map instanceTypeKey = some (.nested tiPath) from by decide,
    show key_map rootVolumeSizeKey = some (.nested rvsPath) from by decide]

theorem lookD_ovExample_ti (tg : PDict) :
    lookD (mergedOf tg ovExample) tiPath = some (.atPrim (.s r5Str)) := by
  rw [mergedOf_ovExample]
  simp only [tiPath, rvsPath]
  rw [setPath_twice_same_head _ _ _ _ (by decide) (by decide), setPath_single,
    setPath_cons2, lookD_dsetD, if_pos rfl, lookV_dict, lookD_dsetD,
    if_neg (by decide : ¬ rootVolumeKey = instanceTypeKey), lookD_dsetD,
    if_pos rfl]
  rfl

theorem lookD_ovExample_rvs (tg : PDict) :
    lookD (mergedOf tg ovExample) rvsPath = some (.atPrim (.i 500)) := by
  rw [mergedOf_ovExample]
  simp only [tiPath, rvsPath]
  rw [setPath_twice_same_head _ _ _ _ (by decide) (by decide), setPath_single,
    setPath_cons2, lookD_dsetD, if_pos rfl, lookV_dict, lookD_dsetD,
    if_pos rfl, lookV_dict, setPath_single, lookD_dsetD, if_pos rfl]
  rfl

theorem dlook_ovExample_other (tg : PDict) (q : Str) (hq : q ≠ templateKey) :
    dlook (mergedOf tg ovExample) q = dlook tg q := by
  rw [mergedOf_ovExample]
  simp only [tiPath, rvsPath]
  rw [dlook_setPath_other _ _ _ _ _ (fun hh => hq hh.symm),
    dlook_setPath_other _ _ _ _ _ (fun hh => hq hh.symm)]

theorem lookD_ovExample_template_other (tg : PDict) (q : Str)
    (hq1 : q ≠ instanceTypeKey) (hq2 : q ≠ rootVolumeKey) :
    lookD (mergedOf tg ovExample) [templateKey, q]
      = lookD tg [templateKey, q] := by
  rw [mergedOf_ovExample]
  simp only [tiPath, rvsPath]
  rw [setPath_twice_same_head _ _ _ _ (by decide) (by decide), setPath_single,
    setPath_cons2, lookD_dsetD, if_pos rfl, lookV_dict, lookD_dsetD,
    if_neg (fun hh => hq2 hh.symm), lookD_dsetD, if_neg (fun hh => hq1 hh.symm)]
  cases h : dlook tg templateKey with
  | none => simp [innerD, h, lookD_cons_path, dlook]
  | some v =>
    cases v with
    | prim p => simp [innerD, h, lookD_cons_path, lookV, dlook]
    | dict di => simp [innerD, h, lookD_cons_path, lookV_dict]

/-- C1 (amended): the merge never changes any top-level entry of the
baseline other than `template`; the baseline is completely unchanged when
its `template` entry is absent or not a dict, and also when the override
contains no nested-destination key.  (As the counterexample shows, a
nested-destination override key does mutate the baseline's shared template
sub-record, so the claim's "unchanged at any depth" is false.) -/
theorem C1_merge_baseline_partial_frame :
    (∀ (tg : PDict) (ov : List (Str × Prim)) (q : Str), q ≠ templateKey →
        dlook (baselineAfter tg ov) q = dlook tg q) ∧
    (∀ (tg : PDict) (ov : List (Str × Prim)), sharedTemplate tg = false →
        baselineAfter tg ov = tg) ∧
    (∀ (tg : PDict) (ov : List (Str × Prim)),
        (∀ kv ∈ ov, ∀ path, key_map kv.1 ≠ some (KDest.nested path)) →
        baselineAfter tg ov = tg) := by
  refine ⟨?_, ?_, ?_⟩
  · intro tg ov q hq
    exact mergeGo_baseline_other (sharedTemplate tg) ov tg tg q hq
  · intro tg ov hsh
    unfold baselineAfter merge_instance_group_override
    rw [hsh]
    exact mergeGo_baseline_not_shared ov tg tg
  · intro tg ov hov
    exact mergeGo_baseline_top_only (sharedTemplate tg) ov tg tg hov

/-- C1 counterexample: merging the single override
`(instanceType : "r5.xlarge")` into the §8 baseline rewrites the BASELINE's
own `template.instanceType` (the shallow `dict.copy()` shares the nested
template dict), so the original baseline record does not stay unchanged. -/
theorem C1_merge_baseline_mutation_cex :
    lookD (baselineAfter tgExample ovInstanceType) tiPath
        = some (.atPrim (.s r5Str)) ∧
    lookD tgExample tiPath = some (.atPrim (.s m6iStr)) ∧
    baselineAfter tgExample ovInstanceType ≠ tgExample := by
  refine ⟨by decide, by decide, fun h => ?_⟩
  exact absurd (congrArg (fun d => lookD d tiPath) h) (by decide)

/-- Witness for C1 (amended) at the §8 baseline and overrides. -/
theorem C1_merge_baseline_partial_frame_wit :
    dlook (baselineAfter tgExample ovExample) nameKey
        = dlook tgExample nameKey ∧
    baselineAfter tgNoTemplate ovExample = tgNoTemplate ∧
    baselineAfter tgExample ovTopOnly = tgExample :=
  ⟨C1_merge_baseline_partial_frame.1 tgExample ovExample nameKey (by decide),
   C1_merge_baseline_partial_frame.2.1 tgNoTemplate ovExample (by decide),
   C1_merge_baseline_partial_frame.2.2 tgExample ovTopOnly (by
     intro kv hkv path
     simp only [ovTopOnly, List.mem_singleton] at hkv
     subst hkv
     simp [show key_map nodeCountKey = some (KDest.top nodeCountKey) from
       by decide])⟩

/-- C3: the merge writes every mapped override key to exactly its mapped
destination.  Conjuncts: the `key_map` table is exactly the claimed mapping;
a mapped single-key override makes the merged record hold the override value
at the destination path; every other top-level entry of the merged record is
carried over from the baseline; and the §8 example override sets
`template.instanceType = "r5.xlarge"` and `template.rootVolume.size = 500`
while carrying over every other baseline field (top-level and inside
`template`). -/
theorem C3_merge_field_mapping :
    (key_map igNameKey = some (.top nameKey) ∧
     key_map nodeCountKey = some (.top nodeCountKey) ∧
     key_map igTypeKey = some (.top typeKey) ∧
     key_map instanceTypeKey = some (.nested tiPath) ∧
     key_map avcKey = some (.nested avPath) ∧
     key_map rootVolumeSizeKey = some (.nested rvsPath) ∧
     key_map recipeNamesKey = some (.top recipeNamesKey) ∧
     key_map recoveryModeKey = some (.top recoveryModeKey)) ∧
    (∀ (k : Str) (m : KDest), key_map k = some m →
      ∀ (tg : PDict) (v : Prim),
        lookD (mergedOf tg [(k, v)]) (destPath m) = some (.atPrim v)) ∧
    (∀ (tg : PDict) (ov : List (Str × Prim)) (q : Str),
        q ∉ topDestKeys → q ≠ templateKey →
        dlook (mergedOf tg ov) q = dlook tg q) ∧
    (∀ tg : PDict,
        lookD (mergedOf tg ovExample) tiPath = some (.atPrim (.s r5Str)) ∧
        lookD (mergedOf tg ovExample) rvsPath = some (.atPrim (.i 500)) ∧
        (∀ q : Str, q ≠ templateKey →
          dlook (mergedOf tg ovExample) q = dlook tg q) ∧
        (∀ q : Str, q ≠ instanceTypeKey → q ≠ rootVolumeKey →
          lookD (mergedOf tg ovExample) [templateKey, q]
            = lookD tg [templateKey, q])) := by
  refine ⟨⟨by decide, by decide, by decide, by decide,
           by decide, by decide, by decide, by decide⟩, ?_, ?_, ?_⟩
  · intro k m hm tg v
    rw [mergedOf_single]
    simp only [applyOne, hm]
    cases m with
    | top dest =>
      simp only [applyDest, destPath]
      rw [← setPath_single, lookD_setPath_self [dest] tg (.prim v) (by simp)]
      rfl
    | nested path =>
      simp only [applyDest, destPath]
      obtain ⟨r, rfl⟩ := key_map_nested_head hm
      rw [lookD_setPath_self _ tg (.prim v) (by simp)]
      rfl
  · intro tg ov q hq1 hq2
    exact mergeGo_merged_other (sharedTemplate tg) ov tg tg q hq1 hq2
  · intro tg
    exact ⟨lookD_ovExample_ti tg, lookD_ovExample_rvs tg,
      fun q hq => dlook_ovExample_other tg q hq,
      fun q hq1 hq2 => lookD_ovExample_template_other tg q hq1 hq2⟩

/-- Witness for C3 at the §8 baseline. -/
theorem C3_merge_field_mapping_wit :
    lookD (mergedOf tgExample [(instanceTypeKey, Prim.s r5Str)])
        (destPath (KDest.nested tiPath)) = some (.atPrim (.s r5Str)) ∧
    dlook (mergedOf tgExample ovExample) nameKey = dlook tgExample nameKey ∧
    lookD (mergedOf tgExample ovExample) [templateKey, attachedVolumesKey]
        = lookD tgExample [templateKey, attachedVolumesKey] ∧
    dlook (mergedOf tgExample ovTopOnly) sizeKey = dlook tgExample sizeKey :=
  ⟨C3_merge_field_mapping.2.1 instanceTypeKey (KDest.nested tiPath)
     (by decide) tgExample (Prim.s r5Str),
   (C3_merge_field_mapping.2.2.2 tgExample).2.2.1 nameKey (by decide),
   (C3_merge_field_mapping.2.2.2 tgExample).2.2.2 attachedVolumesKey
     (by decide) (by decide),
   C3_merge_field_mapping.2.2.1 tgExample ovTopOnly sizeKey
     (by decide) (by decide)⟩

/-- C4: applying two single-key overrides with distinct keys in either order
to the same baseline yields the same final merged record, as Python dict
equality (insertion order ignored); distinct mapped keys always have
distinct destination paths, and unmapped keys are skipped. -/
theorem C4_merge_order_independence (tg : PDict) (k1 k2 : Str)
    (v1 v2 : Prim) (hne : k1 ≠ k2) :
    DEquiv (mergedOf (mergedOf tg [(k1, v1)]) [(k2, v2)])
           (mergedOf (mergedOf tg [(k2, v2)]) [(k1, v1)]) := by
  intro p
  rw [mergedOf_single, mergedOf_single, mergedOf_single, mergedOf_single]
  cases h1 : key_map k1 with
  | none => cases h2 : key_map k2 <;> simp [applyOne, h1]
  | some m1 =>
    cases h2 : key_map k2 with
    | none => simp [applyOne, h1, h2]
    | some m2 =>
      simp only [applyOne, h1, h2]
      exact applyDest_comm m1 m2 (key_map_dest_mem h1) (key_map_dest_mem h2)
        (key_map_inj hne h1 h2) v1 v2 tg p

/-- Witness for C4 at the keys `instanceType` and `rootVolumeSize` on the §8
baseline. -/
theorem C4_merge_order_independence_wit :
    DEquiv
      (mergedOf (mergedOf tgExample [(instanceTypeKey, Prim.s r5Str)])
        [(rootVolumeSizeKey, Prim.i 500)])
      (mergedOf (mergedOf tgExample [(rootVolumeSizeKey, Prim.i 500)])
        [(instanceTypeKey, Prim.s r5Str)]) :=
  C4_merge_order_independence tgExample instanceTypeKey rootVolumeSizeKey
    (Prim.s r5Str) (Prim.i 500) (by decide)

/-
Helper lemmas about the list/string utilities used by the parser claims.
-/

theorem aLookup_pySet {α : Type} (g : List (Str × α)) (k : Str) (v : α)
    (q : Str) :
    aLookup (pySet g k v) q = if k = q then some v else aLookup g q := by
  induction g with
  | nil => rfl
  | cons kw t ih =>
    obtain ⟨k', w⟩ := kw
    by_cases hk : k' = k
    · subst hk
      by_cases hq : k' = q <;> simp [pySet, aLookup, hq]
    · by_cases hq : k' = q <;> by_cases hq2 : k = q <;>
        simp_all [pySet, aLookup]

theorem splitOn_ne_nil (c : Char) : ∀ s : Str, splitOn c s ≠ [] := by
  intro s
  cases s with
  | nil => simp [splitOn]
  | cons a t =>
    simp only [splitOn]
    cases splitOn c t with
    | nil => simp
    | cons h r => by_cases hac : a = c <;> simp [hac]

theorem splitOn_not_mem (c : Char) : ∀ s : Str, c ∉ s → splitOn c s = [s] := by
  intro s
  induction s with
  | nil => intro _; rfl
  | cons a t ih =>
    intro h
    have hac : ¬ a = c := fun hac => h (by rw [← hac]; exact List.mem_cons_self a t)
    simp only [splitOn]
    rw [ih (fun hm => h (List.mem_cons_of_mem a hm))]
    simp [hac]

theorem splitOn_append (c : Char) : ∀ (s1 s2 : Str), c ∉ s1 →
    splitOn c (s1 ++ c :: s2) = s1 :: splitOn c s2 := by
  intro s1
  induction s1 with
  | nil =>
    intro s2 _
    simp only [List.nil_append, splitOn]
    cases hs : splitOn c s2 with
    | nil => exact absurd hs (splitOn_ne_nil c s2)
    | cons h r => simp
  | cons a t ih =>
    intro s2 h
    have hac : ¬ a = c := fun hac => h (by rw [← hac]; exact List.mem_cons_self a t)
    simp only [List.cons_append, splitOn, List.append_eq]
    rw [ih s2 (fun hm => h (List.mem_cons_of_mem a hm))]
    simp [hac]

/-
C7: the bracket guards and empty-record omission of `parse_attached_volumes`.
-/

/-- C7: an empty or non-bracketed volume string parses to the empty list,
and an item none of whose pairs carries a mapped key (`volumeSize`,
`volumeCount`, `volumeType`) contributes no element at all (it is omitted,
not emitted as an empty record). -/
theorem C7_attached_volumes_guards :
    (∀ val : Str,
        val = [] ∨ startsWithChar val '[' = false ∨
          endsWithChar val ']' = false →
        parse_attached_volumes val = []) ∧
    (∀ item : Str,
        aLookup (itemDict item) volumeSizeKey = none →
        aLookup (itemDict item) volumeCountKey = none →
        aLookup (itemDict item) volumeTypeKey = none →
        processItem item = none) := by
  constructor
  · intro val hval
    by_cases hv : val = []
    · simp [parse_attached_volumes, hv]
    · rcases hval with h | h | h
      · exact absurd h hv
      · simp [parse_attached_volumes, hv, h]
      · simp [parse_attached_volumes, hv, h]
  · intro item h1 h2 h3
    by_cases hd : itemDict item = [] <;>
      simp [processItem, mappedVolume, h1, h2, h3, hd]

/-- Witness for C7 at a non-bracketed string and an unmapped-keys item. -/
theorem C7_attached_volumes_guards_wit :
    parse_attached_volumes c7NonBracketed = [] ∧
    processItem c7Unmapped = none :=
  ⟨C7_attached_volumes_guards.1 c7NonBracketed (Or.inr (Or.inl (by decide))),
   C7_attached_volumes_guards.2 c7Unmapped (by decide) (by decide) (by decide)⟩

/-
C10: name-collision behaviour of the CommandGroupIndex builder.
-/

/-- C10: a group definition without an `instanceGroupName` pair is indexed
under the literal name `"unknown"`, and when two definitions map to the same
name (including two nameless ones) the later definition's record replaces
the earlier one. -/
theorem C10_group_index_collisions :
    (∀ gd : Str, ' ' ∉ gd → ¬ pystrip gd = [] →
        aLookup (igConfigOf gd) igNameKey = none →
        parse_instance_groups_string gd = [(unknownName, igConfigOf gd)]) ∧
    (∀ g1 g2 : Str, ' ' ∉ g1 → ' ' ∉ g2 →
        ¬ pystrip g1 = [] → ¬ pystrip g2 = [] →
        igNameOf g1 = igNameOf g2 →
        parse_instance_groups_string (g1 ++ ' ' :: g2)
          = [(igNameOf g1, igConfigOf g2)]) := by
  constructor
  · intro gd hsp hblank hn
    unfold parse_instance_groups_string
    rw [splitOn_not_mem ' ' gd hsp]
    simp [hblank, igNameOf, hn, pySet]
  · intro g1 g2 h1 h2 hb1 hb2 hname
    unfold parse_instance_groups_string
    rw [splitOn_append ' ' g1 g2 h1, splitOn_not_mem ' ' g2 h2]
    simp only [List.foldl_cons, List.foldl_nil]
    rw [if_neg hb1, if_neg hb2]
    rw [← hname]
    simp [pySet]

/-- Witness for C10 at two nameless group definitions: both are indexed
under `"unknown"` and the later one wins. -/
theorem C10_group_index_collisions_wit :
    parse_instance_groups_string c10g1 = [(unknownName, igConfigOf c10g1)] ∧
    parse_instance_groups_string (c10g1 ++ ' ' :: c10g2)
      = [(igNameOf c10g1, igConfigOf c10g2)] :=
  ⟨C10_group_index_collisions.1 c10g1 (by decide) (by decide) (by decide),
   C10_group_index_collisions.2 c10g1 c10g2 (by decide) (by decide)
     (by decide) (by decide) (by decide)⟩

/-
C9: the unbalanced-bracket fallback of `parse_instance_groups_argument`.
-/

theorem applyGroupParts_preserve : ∀ (parts : List Str) (g : GroupRec)
    (x : GVal), aLookup g avcKey = some x →
    (∀ part ∈ parts, ¬ pystrip (splitFirst '=' (pystrip part)).1 = avcKey) →
    aLookup (applyGroupParts parts g) avcKey = some x := by
  intro parts
  induction parts with
  | nil => intro g x hg _; exact hg
  | cons part rest ih =>
    intro g x hg hparts
    unfold applyGroupParts
    simp only [List.foldl_cons]
    refine ih _ x ?_ (fun q hq => hparts q (List.mem_cons_of_mem _ hq))
    split
    · unfold pairStep
      rw [aLookup_pySet,
        if_neg (hparts part (List.mem_cons_self _ _))]
      exact hg
    · exact hg

/-- C9 (amended): when the group string contains
`attachedVolumeConfiguration=` but the bracket scan never returns to depth
zero, `end_pos` stays at `start_pos`: the isolated value is empty (so the
field is first set to the empty volume list), and the ENTIRE text after the
marker is re-parsed as ordinary comma-separated pairs; the field remains the
empty list provided no re-parsed pair itself has key
`attachedVolumeConfiguration` (such a pair — possible only when the marker
text occurs again inside the value — overwrites it, see the
counterexample). -/
theorem C9_unbalanced_bracket_fallback :
    ∀ gs : Str, hasSubstr gs avcMarker = true →
      bracketScan (gs.drop (avcValStart gs)) 0 (avcValStart gs) = none →
      (avcValEnd gs = avcValStart gs ∧
       parse_attached_volumes (avcValStr gs) = [] ∧
       parseOneGroup gs
         = applyGroupParts (avcRemainingParts gs) [(avcKey, GVal.vols [])] ∧
       ((∀ part ∈ avcRemainingParts gs,
           ¬ pystrip (splitFirst '=' (pystrip part)).1 = avcKey) →
         aLookup (parseOneGroup gs) avcKey = some (GVal.vols []))) := by
  intro gs hsub hscan
  have hend : avcValEnd gs = avcValStart gs := by
    unfold avcValEnd
    rw [hscan]
  have hstr : avcValStr gs = [] := by
    unfold avcValStr
    rw [hend]
    simp
  have hpav : parse_attached_volumes (avcValStr gs) = [] := by
    rw [hstr]
    rfl
  have hgrp : parseOneGroup gs
      = applyGroupParts (avcRemainingParts gs) [(avcKey, GVal.vols [])] := by
    unfold parseOneGroup
    rw [if_pos hsub, hpav]
  refine ⟨hend, hpav, hgrp, ?_⟩
  intro hparts
  rw [hgrp]
  exact applyGroupParts_preserve (avcRemainingParts gs)
    [(avcKey, GVal.vols [])] (GVal.vols []) (by simp [aLookup]) hparts

/-- C9 counterexample: on a value that contains the marker text again, the
claim's hypotheses hold (marker present, bracket depth never returns to
zero) but the resulting record's `attachedVolumeConfiguration` field is the
STRING "5" produced by the re-parse, not the empty list. -/
theorem C9_unbalanced_bracket_fallback_cex :
    hasSubstr c9CexInput avcMarker = true ∧
    bracketScan (c9CexInput.drop (avcValStart c9CexInput)) 0
        (avcValStart c9CexInput) = none ∧
    parse_instance_groups_argument c9CexInput
      = [[(avcKey, GVal.s ['5'])]] :=
  ⟨by decide, by decide, by decide⟩

/-- Witness for C9 (amended) at a group string with an unclosed `[`. -/
theorem C9_unbalanced_bracket_fallback_wit :
    aLookup (parseOneGroup c9WitInput) avcKey = some (GVal.vols []) :=
  (C9_unbalanced_bracket_fallback c9WitInput (by decide) (by decide)).2.2.2
    (by decide)

/-
C2: the §8 group-definition parser example.
-/

set_option maxRecDepth 100000

/-- C2 (code bug): evaluating `parse_instance_groups_argument` at the spec's
§8 example string yields exactly `c2Record`: every field matches the claim
EXCEPT `recipeNames`, which comes out as `["recipe1"]` — the top-level comma
split already separated `recipe2` into a dangling token without `=`, which
the pair loop drops — although the source's own recipeNames branch splits
its value on commas expecting several names and the CLI help documents the
syntax `recipeNames=recipe1,recipe2`. -/
theorem C2_group_parse_example :
    parse_instance_groups_argument c2Input = [c2Record] ∧
    aLookup c2Record recipeNamesKey = some (GVal.strs [recipe1Str]) ∧
    ¬ aLookup c2Record recipeNamesKey
        = some (GVal.strs [recipe1Str, recipe2Str]) :=
  ⟨by decide, by decide, by decide⟩

/-
C5 and C8: the flag/tag extractor.
-/

theorem stripLit_eq_none : ∀ (pat s : Str), pat.isPrefixOf s = false →
    stripLit pat s = none := by
  intro pat
  induction pat with
  | nil => intro s h; simp [List.isPrefixOf] at h
  | cons p ps ih =>
    intro s h
    cases s with
    | nil => rfl
    | cons c cs =>
      simp only [List.isPrefixOf, Bool.and_eq_false_iff] at h
      unfold stripLit
      rcases h with h | h
      · rw [if_neg (fun hc => by simp [hc] at h)]
      · by_cases hc : c = p
        · rw [if_pos hc]
          exact ih cs h
        · rw [if_neg hc]

theorem reTokSearch_eq_none (marker : Str) : ∀ s : Str,
    hasSubstr s marker = false → reTokSearch marker s = none := by
  intro s
  induction s with
  | nil => intro _; rfl
  | cons c t ih =>
    intro h
    rw [hasSubstr] at h
    simp only [Bool.or_eq_false_iff] at h
    obtain ⟨hpre, hrest⟩ := h
    unfold reTokSearch tryTok
    rw [stripLit_eq_none marker (c :: t) hpre]
    exact ih hrest

theorem igSearch_eq_none : ∀ s : Str, hasSubstr s igMarker = false →
    igSearch s = none := by
  intro s
  induction s with
  | nil => intro _; rfl
  | cons c t ih =>
    intro h
    rw [hasSubstr] at h
    simp only [Bool.or_eq_false_iff] at h
    obtain ⟨hpre, hrest⟩ := h
    unfold igSearch
    rw [if_neg (by simp [hpre])]
    exact ih hrest

/-- C5 (amended): for each toggle pair, presence of the negative marker
yields `false` (the negative check is first, so this holds whether or not
the positive marker also occurs), presence of the positive marker without
the negative yields `true`, and presence of neither yields the declared
default `false`.  (The claim's aside that the positive marker is a substring
of the negative one is false — see the counterexample.) -/
theorem C5_toggle_flags :
    (∀ cli : Str, hasSubstr cli mazNeg = true →
        (parse_cli_command cli).multi_az = false) ∧
    (∀ cli : Str, hasSubstr cli mazNeg = false →
        hasSubstr cli mazPos = true →
        (parse_cli_command cli).multi_az = true) ∧
    (∀ cli : Str, hasSubstr cli mazNeg = false →
        hasSubstr cli mazPos = false →
        (parse_cli_command cli).multi_az = false) ∧
    (∀ cli : Str, hasSubstr cli lbNeg = true →
        (parse_cli_command cli).enable_load_balancer = false) ∧
    (∀ cli : Str, hasSubstr cli lbNeg = false →
        hasSubstr cli lbPos = true →
        (parse_cli_command cli).enable_load_balancer = true) ∧
    (∀ cli : Str, hasSubstr cli lbNeg = false →
        hasSubstr cli lbPos = false →
        (parse_cli_command cli).enable_load_balancer = false) := by
  refine ⟨?_, ?_, ?_, ?_, ?_, ?_⟩
  · intro cli h1
    simp [parse_cli_command, h1]
  · intro cli h1 h2
    simp [parse_cli_command, h1, h2]
  · intro cli h1 h2
    simp [parse_cli_command, h1, h2]
  · intro cli h1
    simp [parse_cli_command, h1]
  · intro cli h1 h2
    simp [parse_cli_command, h1, h2]
  · intro cli h1 h2
    simp [parse_cli_command, h1, h2]

/-- C5 counterexample: the positive marker is NOT a substring of the
negative marker, for either toggle pair — `"--no-multi-az"` does not contain
`"--multi-az"` (before `multi-az` the negative marker has `o-`, not `--`),
and likewise for the load-balancer pair — refuting the claim's "even though
the positive marker is a substring of the negative one". -/
theorem C5_toggle_flags_cex :
    hasSubstr mazNeg mazPos = false ∧ hasSubstr lbNeg lbPos = false :=
  ⟨by decide, by decide⟩

/-- Witness for C5 (amended) at concrete command strings. -/
theorem C5_toggle_flags_wit :
    (parse_cli_command c5OnlyNeg).multi_az = false ∧
    (parse_cli_command c5OnlyPos).multi_az = true ∧
    (parse_cli_command c5Neither).multi_az = false ∧
    (parse_cli_command c5OnlyNegLb).enable_load_balancer = false ∧
    (parse_cli_command c5OnlyPosLb).enable_load_balancer = true ∧
    (parse_cli_command c5Neither).enable_load_balancer = false :=
  ⟨C5_toggle_flags.1 c5OnlyNeg (by decide),
   C5_toggle_flags.2.1 c5OnlyPos (by decide) (by decide),
   C5_toggle_flags.2.2.1 c5Neither (by decide) (by decide),
   C5_toggle_flags.2.2.2.1 c5OnlyNegLb (by decide),
   C5_toggle_flags.2.2.2.2.1 c5OnlyPosLb (by decide) (by decide),
   C5_toggle_flags.2.2.2.2.2 c5Neither (by decide) (by decide)⟩

/-- C8: the extractor is a total function (the model returns a record for
every command string by construction); a command string without the
`--tags` marker yields an empty tags mapping, and a command string
containing none of the recognized markers yields exactly the declared
defaults. -/
theorem C8_extractor_totality_defaults :
    (∀ cli : Str, hasSubstr cli tagsMarker = false →
        (parse_cli_command cli).tags = []) ∧
    (∀ cli : Str,
        hasSubstr cli tagsMarker = false →
        hasSubstr cli subnetMarker = false →
        hasSubstr cli mazNeg = false → hasSubstr cli mazPos = false →
        hasSubstr cli lbNeg = false → hasSubstr cli lbPos = false →
        hasSubstr cli dbMarker = false → hasSubstr cli igMarker = false →
        parse_cli_command cli = defaultParsed) := by
  constructor
  · intro cli h
    simp [parse_cli_command, h]
  · intro cli ht hs hmn hmp hln hlp hd hig
    simp [parse_cli_command, defaultParsed, ht, hmn, hmp, hln, hlp,
      reTokSearch_eq_none subnetMarker cli hs,
      reTokSearch_eq_none dbMarker cli hd,
      igSearch_eq_none cli hig]

/-- Witness for C8 at a command string without any recognized marker. -/
theorem C8_extractor_totality_defaults_wit :
    parse_cli_command c8Plain = defaultParsed :=
  C8_extractor_totality_defaults.2 c8Plain (by decide) (by decide)
    (by decide) (by decide) (by decide) (by decide) (by decide) (by decide)

/-
C6: the tag quoting round-trip.
-/

theorem normQuotes_cons_ne (a : Char) (r : Str) (ha : a ≠ '"') :
    normQuotes (a :: r) = a :: normQuotes r := by
  cases r with
  | nil => rfl
  | cons b rb => simp [normQuotes, ha]

theorem normQuotes_quotequote (r : Str) :
    normQuotes ('"' :: '"' :: r) = '"' :: normQuotes r := by
  simp [normQuotes]

theorem normQuotes_quote_cons (a : Char) (r : Str) (ha : a ≠ '"') :
    normQuotes ('"' :: a :: r) = '"' :: normQuotes (a :: r) := by
  simp [normQuotes, fun h : a = '"' => ha h]

theorem normQuotes_noquote_append : ∀ (l r : Str), (∀ c ∈ l, c ≠ '"') →
    normQuotes (l ++ r) = l ++ normQuotes r := by
  intro l
  induction l with
  | nil => intro r _; rfl
  | cons a t ih =>
    intro r h
    have ha : a ≠ '"' := h a (List.mem_cons_self _ _)
    rw [List.cons_append, normQuotes_cons_ne a _ ha,
      ih r (fun c hc => h c (List.mem_cons_of_mem a hc))]
    rfl

theorem normQuotes_seg (l : Str) (hl : ∀ c ∈ l, c ≠ '"') (hne : l ≠ [])
    (r : Str) :
    normQuotes ('"' :: (l ++ r)) = '"' :: (l ++ normQuotes r) := by
  obtain ⟨a, l', rfl⟩ : ∃ a l', l = a :: l' := by
    cases l with
    | nil => exact absurd rfl hne
    | cons a l' => exact ⟨a, l', rfl⟩
  rw [List.cons_append, normQuotes_quote_cons a _ (hl a (List.mem_cons_self _ _)),
    ← List.cons_append, normQuotes_noquote_append _ r hl]

theorem normQuotes_seg2 (l : Str) (hl : ∀ c ∈ l, c ≠ '"') (r : Str) :
    normQuotes ('"' :: '"' :: (l ++ r)) = '"' :: (l ++ normQuotes r) := by
  rw [normQuotes_quotequote, normQuotes_noquote_append _ r hl]

theorem normQuotes_tagSingle (k v : Str) (hk : k ≠ []) (hv : v ≠ [])
    (hkq : ∀ c ∈ k, c ≠ '"') (hvq : ∀ c ∈ v, c ≠ '"') :
    normQuotes (tagSingle k v) = tagSingle k v := by
  have e1 : tagSingle k v
      = keyLit ++ ('"' :: (k ++ ('"' :: (valueLit ++ ('"' :: (v ++ ['"'])))))) := by
    simp [tagSingle, keyQuote, keyLit, midQuote, valueLit]
  rw [e1, normQuotes_noquote_append keyLit _ (by decide),
    normQuotes_seg k hkq hk _, normQuotes_seg valueLit (by decide) (by decide) _,
    normQuotes_seg v hvq hv _]
  rfl

theorem normQuotes_tagDouble (k v : Str)
    (hkq : ∀ c ∈ k, c ≠ '"') (hvq : ∀ c ∈ v, c ≠ '"') :
    normQuotes (tagDouble k v) = tagSingle k v := by
  have e1 : tagDouble k v
      = keyLit ++ ('"' :: '"' ::
          (k ++ ('"' :: '"' ::
            (valueLit ++ ('"' :: '"' :: (v ++ ['"', '"'])))))) := by
    simp [tagDouble, keyLit, valueLit]
  have e2 : tagSingle k v
      = keyLit ++ ('"' :: (k ++ ('"' :: (valueLit ++ ('"' :: (v ++ ['"'])))))) := by
    simp [tagSingle, keyQuote, keyLit, midQuote, valueLit]
  rw [e1, e2, normQuotes_noquote_append keyLit _ (by decide),
    normQuotes_seg2 k hkq _, normQuotes_seg2 valueLit (by decide) _,
    normQuotes_seg2 v hvq _]
  rfl

theorem stripLit_append : ∀ (pat r : Str), stripLit pat (pat ++ r) = some r := by
  intro pat
  induction pat with
  | nil => intro r; rfl
  | cons p ps ih => intro r; simp [stripLit, ih]

theorem takeWhile_noquote : ∀ (l r : Str), (∀ c ∈ l, c ≠ '"') →
    (l ++ '"' :: r).takeWhile (fun c => c != '"') = l := by
  intro l
  induction l with
  | nil => intro r _; simp [List.takeWhile]
  | cons a t ih =>
    intro r hl
    have ha : (a != '"') = true := by
      simp only [bne_iff_ne, ne_eq]
      exact hl a (List.mem_cons_self _ _)
    simp only [List.cons_append, List.takeWhile, ha, List.append_eq]
    rw [ih r (fun c hc => hl c (List.mem_cons_of_mem a hc))]

theorem dropWhile_noquote : ∀ (l r : Str), (∀ c ∈ l, c ≠ '"') →
    (l ++ '"' :: r).dropWhile (fun c => c != '"') = '"' :: r := by
  intro l
  induction l with
  | nil => intro r _; simp [List.dropWhile]
  | cons a t ih =>
    intro r hl
    have ha : (a != '"') = true := by
      simp only [bne_iff_ne, ne_eq]
      exact hl a (List.mem_cons_self _ _)
    simp only [List.cons_append, List.dropWhile, ha, List.append_eq]
    exact ih r (fun c hc => hl c (List.mem_cons_of_mem a hc))

theorem tryTag_tagSingle (k v : Str) (hk : k ≠ []) (hv : v ≠ [])
    (hkq : ∀ c ∈ k, c ≠ '"') (hvq : ∀ c ∈ v, c ≠ '"') :
    tryTag (tagSingle k v) = some (k, v, []) := by
  have e : tagSingle k v
      = keyQuote ++ (k ++ ('"' :: (valueLit ++ ('"' :: (v ++ ['"']))))) := by
    simp [tagSingle, midQuote, valueLit]
  have e2 : '"' :: (valueLit ++ ('"' :: (v ++ ['"'])))
      = midQuote ++ (v ++ '"' :: []) := by
    simp [midQuote, valueLit]
  unfold tryTag
  rw [e, stripLit_append]
  simp only [takeWhile_noquote k (valueLit ++ '"' :: (v ++ ['"'])) hkq,
    dropWhile_noquote k (valueLit ++ '"' :: (v ++ ['"'])) hkq, if_neg hk]
  rw [e2, stripLit_append]
  simp only [takeWhile_noquote v [] hvq, dropWhile_noquote v [] hvq, if_neg hv]

theorem findTagPairs_of_tryTag (s k v : Str)
    (h : tryTag s = some (k, v, [])) (hne : s ≠ []) :
    findTagPairs s = [(k, v)] := by
  obtain ⟨c, t, rfl⟩ : ∃ c t, s = c :: t := by
    cases s with
    | nil => exact absurd rfl hne
    | cons c t => exact ⟨c, t, rfl⟩
  unfold findTagPairs
  simp [findTagPairsGo, h]

/-- C6: a tags string `key="k",value="v"` and its doubled-quote form
`key=""k"",value=""v""` (keys and values non-empty, without embedded
quotes) both parse to the identical one-entry tag mapping `[(k, v)]`:
normalisation collapses the doubled quotes to the single-quote form before
the pattern scan. -/
theorem C6_tag_quote_roundtrip (k v : Str) (hk : k ≠ []) (hv : v ≠ [])
    (hkq : ∀ c ∈ k, c ≠ '"') (hvq : ∀ c ∈ v, c ≠ '"') :
    tagsFromStr (tagSingle k v) = [(k, v)] ∧
    tagsFromStr (tagDouble k v) = [(k, v)] := by
  have hn1 := normQuotes_tagSingle k v hk hv hkq hvq
  have hn2 := normQuotes_tagDouble k v hkq hvq
  have hf : findTagPairs (tagSingle k v) = [(k, v)] := by
    refine findTagPairs_of_tryTag _ k v (tryTag_tagSingle k v hk hv hkq hvq) ?_
    simp [tagSingle, keyQuote]
  constructor <;> simp [tagsFromStr, hn1, hn2, hf, pySet]

/-- Witness for C6 at the spec's concrete tag pair `a`/`b`. -/
theorem C6_tag_quote_roundtrip_wit :
    tagsFromStr (tagSingle ['a'] ['b']) = [(['a'], ['b'])] ∧
    tagsFromStr (tagDouble ['a'] ['b']) = [(['a'], ['b'])] :=
  C6_tag_quote_roundtrip ['a'] ['b'] (by decide) (by decide)
    (by decide) (by decide)

end GenReqTemplate
